import Mathlib

/-!
Shallow embedding of the Next.js framework adapter of firebase-tools
(`src/frameworks/next/index.ts`): the backend-necessity analysis performed by
`build`, and the static-export path resolution and file-copy selection
performed by `ɵcodegenPublicDirectory`.

Manifests are modelled as explicit data; the file system is modelled as the
`Option`-valued manifest slots of `BuildInputs` (`none` = the JSON file is
absent, in which case `readJSON` throws).  The per-rule compatibility
predicates `isHeaderSupportedByFirebase` / `isRedirectSupportedByFirebase` /
`isRewriteSupportedByFirebase` and the regex cleanup `cleanEscapedChars` live
in `src/frameworks/next/utils.ts`, which is outside the sources at hand; the
development is therefore parametric in them (`RulePredicates`), so every
theorem below holds for each possible implementation of those predicates.
-/

namespace NextAdapter

/-- One matcher of a registered middleware (`middleware-manifest.json`). -/
structure MiddlewareMatcher where
  regexp : String
  deriving DecidableEq

/-- One registered middleware: its list of matchers. -/
structure MiddlewareInfo where
  matchers : List MiddlewareMatcher
  deriving DecidableEq

/-- `middleware-manifest.json`: mapping middleware name → info, as an
association list in object-key order. -/
structure MiddlewareManifest where
  middleware : List (String × MiddlewareInfo)
  deriving DecidableEq

/-- `export-marker.json`: only the `isNextImageImported` field is read. -/
structure ExportMarker where
  isNextImageImported : Bool
  deriving DecidableEq

/-- The `images` object of `images-manifest.json`; the manifest schema
declares `unoptimized` as a required boolean, so the source's strict
`=== false` comparison is boolean equality with `false`. -/
structure ImagesConfig where
  unoptimized : Bool
  deriving DecidableEq

/-- `images-manifest.json`. -/
structure ImagesManifest where
  images : ImagesConfig
  deriving DecidableEq

/-- `prerender-manifest.json` entry for one prerendered route.
`initialRevalidateSeconds` is `number | false` in the manifest; `none`
models `false` (no incremental revalidation). -/
structure RouteInfo where
  initialRevalidateSeconds : Option Nat
  dataRoute : String
  deriving DecidableEq

/-- The `fallback` field of a dynamic route: `false`, `null` (blocking), or a
fallback page path. -/
inductive FallbackValue where
  | noFallback : FallbackValue
  | blocking : FallbackValue
  | page : String → FallbackValue
  deriving DecidableEq

/-- `prerender-manifest.json` entry for one dynamic route. -/
structure DynamicRouteInfo where
  fallback : FallbackValue
  deriving DecidableEq

/-- `prerender-manifest.json`: `routes` and `dynamicRoutes`, each an
association list in object-key order. -/
structure PrerenderManifest where
  routes : List (String × RouteInfo)
  dynamicRoutes : List (String × DynamicRouteInfo)
  deriving DecidableEq

/-- One header key/value pair of a header rule. -/
structure HeaderEntry where
  key : String
  value : String
  deriving DecidableEq

/-- A header rule of `routes-manifest.json`. -/
structure HeaderRule where
  source : String
  regex : String
  headers : List HeaderEntry
  deriving DecidableEq

/-- A redirect rule of `routes-manifest.json`. -/
structure RedirectRule where
  source : String
  destination : String
  statusCode : Nat
  regex : String
  deriving DecidableEq

/-- A rewrite rule of `routes-manifest.json`. -/
structure RewriteRule where
  source : String
  destination : String
  regex : String
  deriving DecidableEq

/-- The `rewrites` field of `routes-manifest.json` is either a plain array
(`Array.isArray` succeeds) or the phased object
`{beforeFiles, afterFiles, fallback}`. -/
inductive RewritesField where
  | list : List RewriteRule → RewritesField
  | phased : List RewriteRule → List RewriteRule → List RewriteRule → RewritesField
  deriving DecidableEq

/-- `routes-manifest.json`; the three rule fields are optional and default to
empty on destructuring (`const {headers = [], redirects = [], rewrites = []}`). -/
structure Manifest where
  headers : Option (List HeaderRule)
  redirects : Option (List RedirectRule)
  rewrites : Option RewritesField
  deriving DecidableEq

/-- The manifest files the `build` step may read, as found (or not found) on
disk in the dist directory. -/
structure BuildInputs where
  middlewareManifest : Option MiddlewareManifest
  exportMarker : Option ExportMarker
  imagesManifest : Option ImagesManifest
  appPathRoutesManifest : Option (List (String × String))
  prerenderManifest : Option PrerenderManifest
  pagesManifest : Option (List (String × String))
  routesManifest : Option Manifest

/-- The helpers imported from `src/frameworks/next/utils.ts` (not among the
sources): the three per-rule compatibility predicates and the regex-escaping
cleanup.  All results are parametric in them. -/
structure RulePredicates where
  isHeaderSupportedByFirebase : HeaderRule → Bool
  isRedirectSupportedByFirebase : RedirectRule → Bool
  isRewriteSupportedByFirebase : RewriteRule → Bool
  cleanEscapedChars : String → String

/-- A header rule as emitted into the returned `BuildResult`. -/
structure EmittedHeader where
  source : String
  headers : List HeaderEntry
  deriving DecidableEq

/-- A redirect rule as emitted into the returned `BuildResult`
(`statusCode` is renamed to `type`). -/
structure EmittedRedirect where
  source : String
  destination : String
  type : Nat
  deriving DecidableEq

/-- A rewrite rule as emitted into the returned `BuildResult`. -/
structure EmittedRewrite where
  source : String
  destination : String
  deriving DecidableEq

/-- The observable outcome of `build`: the returned `BuildResult` fields
together with the accumulated `reasonsForBackend` list (which the source
prints to the console). -/
structure BuildOutput where
  reasonsForBackend : List String
  wantsBackend : Bool
  headers : List EmittedHeader
  redirects : List EmittedRedirect
  rewrites : List EmittedRewrite
  deriving DecidableEq

/-- JavaScript truthiness of the `number | false` field
`initialRevalidateSeconds` (`none` = `false`; the number `0` is falsy). -/
def revalidateTruthy : Option Nat → Bool
  | none => false
  | some n => n != 0

/-- The source's `it.fallback !== false` test. -/
def fallbackNotFalse : FallbackValue → Bool
  | .noFallback => false
  | _ => true

/-- Modelled from the spec: `getNextjsRewritesToUse` from
`src/frameworks/next/utils.ts` is not among the sources.  Per the spec, only
the unphased (or before-files) form is representable downstream, so a plain
array is used as-is and a phased object contributes its `beforeFiles` list. -/
def getNextjsRewritesToUse : RewritesField → List RewriteRule
  | .list rs => rs
  | .phased before _ _ => before

/-- `readJSON`: produce the parsed manifest, or throw if the file is absent. -/
def readJSONFile {α : Type} (path : String) : Option α → Except String α
  | some a => Except.ok a
  | none => Except.error path

/-- Reason push of lines 98-101: `use of Next middleware` exactly when the
`middleware` object has at least one key. -/
def segMiddleware (mm : MiddlewareManifest) : List String :=
  if mm.middleware.length > 0 then ["use of Next middleware"] else []

/-- Reason push of lines 103-110: the images manifest is read only when
`isNextImageImported` is truthy, and the reason is pushed exactly when
`images.unoptimized === false`. -/
def segImage (em : ExportMarker) (imo : Option ImagesManifest) : List String :=
  if em.isNextImageImported then
    match imo with
    | some im => if im.images.unoptimized == false then ["use of Next Image Optimization"] else []
    | none => []
  else []

/-- Reason push of lines 112-121: `use of Next app directory` exactly when the
app-path-routes manifest (defaulted to `{}` when the file is absent) has at
least one key. -/
def segAppDir (apr : List (String × String)) : List String :=
  if apr.length > 0 then ["use of Next app directory"] else []

/-- Reason pushes of lines 127-134: one `use of fallback X` per dynamic route
whose `fallback !== false`, in manifest order. -/
def segFallback (prm : PrerenderManifest) : List String :=
  (prm.dynamicRoutes.filter (fun kv => fallbackNotFalse kv.2.fallback)).map
    (fun kv => "use of fallback " ++ kv.1)

/-- Reason pushes of lines 136-143: one `use of revalidate X` per prerendered
route whose `initialRevalidateSeconds` is truthy, in manifest order. -/
def segRevalidate (prm : PrerenderManifest) : List String :=
  (prm.routes.filter (fun kv => revalidateTruthy kv.2.initialRevalidateSeconds)).map
    (fun kv => "use of revalidate " ++ kv.1)

/-- Lines 148-157: the pages-manifest keys that are neither reserved system
pages nor in the prerendered or dynamic route sets. -/
def unrenderedPages (prm : PrerenderManifest) (pm : List (String × String)) : List String :=
  let prerenderedRoutes := prm.routes.map Prod.fst
  let dynamicRoutes := prm.dynamicRoutes.map Prod.fst
  (pm.map Prod.fst).filter (fun it =>
    !(["/_app", "/", "/_error", "/_document", "/404"].contains it
      || prerenderedRoutes.contains it
      || dynamicRoutes.contains it))

/-- Reason pushes of lines 158-162: one `non-static route X` per unrendered
page, in manifest order. -/
def segUnrendered (prm : PrerenderManifest) (pm : List (String × String)) : List String :=
  (unrenderedPages prm pm).map (fun key => "non-static route " ++ key)

/-- Reason push of lines 172-175: `use of advanced headers` when not every
header rule passes its compatibility predicate. -/
def segHeaders (P : RulePredicates) (rm : Manifest) : List String :=
  if (rm.headers.getD []).all P.isHeaderSupportedByFirebase then []
  else ["use of advanced headers"]

/-- Reason push of lines 183-186: `use of advanced redirects` when not every
redirect rule passes its compatibility predicate. -/
def segRedirects (P : RulePredicates) (rm : Manifest) : List String :=
  if (rm.redirects.getD []).all P.isRedirectSupportedByFirebase then []
  else ["use of advanced redirects"]

/-- Reason push of lines 197-210: when the rewrites are phased and
`afterFiles` or `fallback` is non-empty, one `use of advanced rewrites` is
pushed unconditionally; otherwise it is pushed when not every rewrite in use
passes its compatibility predicate. -/
def segRewrites (P : RulePredicates) (rm : Manifest) : List String :=
  match rm.rewrites.getD (.list []) with
  | .phased before after fb =>
    if after.length > 0 || fb.length > 0 then ["use of advanced rewrites"]
    else if (getNextjsRewritesToUse (.phased before after fb)).all
        P.isRewriteSupportedByFirebase then []
    else ["use of advanced rewrites"]
  | .list rs =>
    if (getNextjsRewritesToUse (.list rs)).all P.isRewriteSupportedByFirebase then []
    else ["use of advanced rewrites"]

/-- Lines 177-181: the supported header rules, escaping cleaned, in order. -/
def emittedHeaders (P : RulePredicates) (rm : Manifest) : List EmittedHeader :=
  ((rm.headers.getD []).filter P.isHeaderSupportedByFirebase).map
    (fun h => { source := P.cleanEscapedChars h.source, headers := h.headers })

/-- Lines 188-195: the supported redirect rules, escaping cleaned, in order. -/
def emittedRedirects (P : RulePredicates) (rm : Manifest) : List EmittedRedirect :=
  ((rm.redirects.getD []).filter P.isRedirectSupportedByFirebase).map
    (fun r => { source := P.cleanEscapedChars r.source, destination := r.destination,
                type := r.statusCode })

/-- Lines 213-219: the supported rewrites in use, escaping cleaned, in order. -/
def emittedRewrites (P : RulePredicates) (rm : Manifest) : List EmittedRewrite :=
  ((getNextjsRewritesToUse (rm.rewrites.getD (.list []))).filter
      P.isRewriteSupportedByFirebase).map
    (fun r => { source := P.cleanEscapedChars r.source, destination := r.destination })

/-- The pure computation of `build` on successfully read manifests:
the reason list accumulated in source order, `wantsBackend` from its length
(line 221), and the three emitted rule lists. -/
def buildCore (P : RulePredicates) (mm : MiddlewareManifest) (em : ExportMarker)
    (imo : Option ImagesManifest) (apr : List (String × String))
    (prm : PrerenderManifest) (pm : List (String × String)) (rm : Manifest) : BuildOutput :=
  let reasonsForBackend :=
    segMiddleware mm ++ segImage em imo ++ segAppDir apr ++ segFallback prm ++
    segRevalidate prm ++ segUnrendered prm pm ++ segHeaders P rm ++
    segRedirects P rm ++ segRewrites P rm
  { reasonsForBackend := reasonsForBackend
    wantsBackend := decide (reasonsForBackend.length > 0)
    headers := emittedHeaders P rm
    redirects := emittedRedirects P rm
    rewrites := emittedRewrites P rm }

/-- The `build` step (lines 92-239), reading the manifests in source order.
`middleware-manifest.json`, `export-marker.json` (and, when the marker is
set, `images-manifest.json`), `prerender-manifest.json`,
`pages-manifest.json` and `routes-manifest.json` are read with `readJSON`
and their absence throws; only `app-path-routes-manifest.json` is guarded by
`fileExistsSync` and defaults to `{}`. -/
def build (P : RulePredicates) (files : BuildInputs) : Except String BuildOutput := do
  let mm ← readJSONFile ("middleware-manifest.json") files.middlewareManifest
  let em ← readJSONFile ("export-marker.json") files.exportMarker
  let imo ←
    if em.isNextImageImported then do
      let im ← readJSONFile ("images-manifest.json") files.imagesManifest
      pure (some im)
    else pure none
  let apr := files.appPathRoutesManifest.getD []
  let prm ← readJSONFile ("prerender-manifest.json") files.prerenderManifest
  let pm ← readJSONFile ("pages-manifest.json") files.pagesManifest
  let rm ← readJSONFile ("routes-manifest.json") files.routesManifest
  pure (buildCore P mm em imo apr prm pm rm)

/-- Whether `build` completes without throwing. -/
def buildSucceeds (P : RulePredicates) (files : BuildInputs) : Bool :=
  match build P files with
  | .ok _ => true
  | .error _ => false

/-! Static exporter (`ɵcodegenPublicDirectory`, lines 263-385). -/

/-- One file copy performed by the exporter. -/
structure CopyOp where
  src : String
  dest : String
  deriving DecidableEq

/-- JavaScript `path.split("/")` on the character list: split at every `/`,
keeping empty pieces. -/
def jsSplitSlash : List Char → List (List Char)
  | [] => [[]]
  | c :: rest =>
    let r := jsSplitSlash rest
    if c = '/' then [] :: r
    else
      match r with
      | [] => [[c]]
      | h :: t => (c :: h) :: t

/-- Line 372: `path.split("/").filter((it) => !!it)` — the non-empty
segments of a route path. -/
def pathParts (path : String) : List String :=
  ((jsSplitSlash path.data).map (fun cs => String.mk cs)).filter (fun it => it != "")

/-- Line 373: the segments, or the literal `index` when there are none. -/
def partsOrIndex (path : String) : List String :=
  let parts := pathParts path
  if parts.length > 0 then parts else ["index"]

/-- Line 375: the output HTML file name of a route
(`path.join` on a POSIX file system separates with `/`). -/
def htmlPathOf (path : String) : String :=
  String.intercalate ("/") (partsOrIndex path) ++ ".html"

/-- Line 380: the data-sidecar source file name of a non-component route. -/
def dataPathOf (path : String) : String :=
  String.intercalate ("/") (partsOrIndex path) ++ ".json"

/-- The body of the per-route export loop (lines 335-384): the list of file
copies performed for one prerendered route.  `regexTest` abstracts
JavaScript `new RegExp(r).test(path)`; `middlewareMatchers`,
`rewritesRegexesNotSupported`, `redirectsRegexesNotSupported` and
`headersRegexesNotSupported` are the regex collections computed in lines
289-332.  An empty result means the route is skipped: no HTML and no data
file is copied for it. -/
def exportRouteCopies (regexTest : String → String → Bool)
    (middlewareMatchers : List MiddlewareMatcher)
    (rewritesRegexesNotSupported redirectsRegexesNotSupported
      headersRegexesNotSupported : List String)
    (sourceDir distDir destDir : String) (path : String) (route : RouteInfo) : List CopyOp :=
  if revalidateTruthy route.initialRevalidateSeconds then []
  else if middlewareMatchers.any (fun matcher => regexTest matcher.regexp path) then []
  else if rewritesRegexesNotSupported.any (fun r => regexTest r path) then []
  else if redirectsRegexesNotSupported.any (fun r => regexTest r path) then []
  else if headersRegexesNotSupported.any (fun r => regexTest r path) then []
  else
    let isReactServerComponent := route.dataRoute.endsWith (".rsc")
    let contentDist := sourceDir ++ "/" ++ distDir ++ "/server/" ++
      (if isReactServerComponent then "app" else "pages")
    let htmlPath := htmlPathOf path
    let htmlCopy : CopyOp := { src := contentDist ++ "/" ++ htmlPath
                               dest := destDir ++ "/" ++ htmlPath }
    if isReactServerComponent then [htmlCopy]
    else
      [htmlCopy,
       { src := contentDist ++ "/" ++ dataPathOf path
         dest := destDir ++ "/" ++ route.dataRoute }]

/-- The root/error HTML copy loop (lines 273-284): for one of `index.html`,
`404.html`, `500.html`, the source file chosen, if any.  `pagesHas` and
`appHas` model `pathExists` on the legacy (`server/pages`) and
component-rendered (`server/app`) build locations; the source checks the
pages location first and `continue`s when it hits. -/
def defaultHtmlCopySource (sourceDir distDir : String) (pagesHas appHas : String → Bool)
    (file : String) : Option String :=
  if pagesHas file then some (sourceDir ++ "/" ++ distDir ++ "/server/pages/" ++ file)
  else if appHas file then some (sourceDir ++ "/" ++ distDir ++ "/server/app/" ++ file)
  else none

/-! Concrete inputs used by witnesses and counterexamples. -/

/-- Rule predicates that accept every rule and clean nothing. -/
def acceptAll : RulePredicates :=
  { isHeaderSupportedByFirebase := fun _ => true
    isRedirectSupportedByFirebase := fun _ => true
    isRewriteSupportedByFirebase := fun _ => true
    cleanEscapedChars := fun s => s }

/-- An empty middleware manifest. -/
def mmEmpty : MiddlewareManifest := { middleware := [] }

/-- An export marker with no image import. -/
def emFalse : ExportMarker := { isNextImageImported := false }

/-- An empty prerender manifest. -/
def prmEmpty : PrerenderManifest := { routes := [], dynamicRoutes := [] }

/-- A routes manifest with all three rule fields absent. -/
def rmEmpty : Manifest := { headers := none, redirects := none, rewrites := none }

/-- A dist directory holding all mandatory manifests, all of them empty. -/
def filesBase : BuildInputs :=
  { middlewareManifest := some mmEmpty
    exportMarker := some emFalse
    imagesManifest := none
    appPathRoutesManifest := none
    prerenderManifest := some prmEmpty
    pagesManifest := some []
    routesManifest := some rmEmpty }

/-- A middleware manifest registering one middleware with no matchers. -/
def mmNoMatchers : MiddlewareManifest :=
  { middleware := [("middleware", { matchers := [] })] }

/-- `filesBase` with the matcher-less middleware manifest. -/
def filesNoMatchers : BuildInputs :=
  { filesBase with middlewareManifest := some mmNoMatchers }

/-- `filesBase` with the middleware manifest file absent. -/
def filesNoMiddleware : BuildInputs :=
  { filesBase with middlewareManifest := none }

/-- The prerendered root route with `initialRevalidateSeconds: 10`. -/
def routeRevalidate : RouteInfo :=
  { initialRevalidateSeconds := some 10, dataRoute := "/index.json" }

/-- A prerender manifest whose only route is the revalidated root route. -/
def prmRevalidate : PrerenderManifest :=
  { routes := [("/", routeRevalidate)], dynamicRoutes := [] }

/-- `filesBase` with the revalidated root route. -/
def filesRevalidate : BuildInputs :=
  { filesBase with prerenderManifest := some prmRevalidate }

/-- An export marker recording an image import. -/
def emTrue : ExportMarker := { isNextImageImported := true }

/-- An images manifest that does not disable optimization. -/
def imOptimized : ImagesManifest := { images := { unoptimized := false } }

/-- `filesBase` with the image marker set and an images manifest present. -/
def filesImage : BuildInputs :=
  { filesBase with exportMarker := some emTrue, imagesManifest := some imOptimized }

/-- A rewrite rule used in a phased `afterFiles` list. -/
def rwAfter : RewriteRule := { source := "/a", destination := "/b", regex := "^/a$" }

/-- A routes manifest whose rewrites are phased with a non-empty
`afterFiles`. -/
def rmPhased : Manifest :=
  { headers := none, redirects := none, rewrites := some (.phased [] [rwAfter] []) }

/-- `filesBase` with the phased routes manifest. -/
def filesPhased : BuildInputs :=
  { filesBase with routesManifest := some rmPhased }

/-- `filesBase` with a pages manifest containing `/about` only. -/
def filesAbout : BuildInputs :=
  { filesBase with pagesManifest := some [("/about", "pages/about.js")] }

/-! Helper lemmas. -/

theorem data_append (s t : String) : (s ++ t).data = s.data ++ t.data := rfl

/-- Two strings with distinct prefixes of length `n` differ, whatever is
appended after those prefixes. -/
theorem append_ne_of_take_ne (s t u v : String) (n : Nat)
    (hs : n ≤ s.data.length) (ht : n ≤ t.data.length)
    (hne : s.data.take n ≠ t.data.take n) : s ++ u ≠ t ++ v := by
  intro he
  apply hne
  have hd : s.data ++ u.data = t.data ++ v.data := by
    simpa [data_append] using congrArg String.data he
  have h1 : (s.data ++ u.data).take n = s.data.take n := by
    rw [List.take_append_eq_append_take, Nat.sub_eq_zero_of_le hs]
    simp
  have h2 : (t.data ++ v.data).take n = t.data.take n := by
    rw [List.take_append_eq_append_take, Nat.sub_eq_zero_of_le ht]
    simp
  rw [← h1, hd, h2]

/-- One-sided variant of `append_ne_of_take_ne`. -/
theorem append_ne_of_take_ne_right (s t u : String) (n : Nat)
    (hs : n ≤ s.data.length) (_ht : n ≤ t.data.length)
    (hne : s.data.take n ≠ t.data.take n) : s ++ u ≠ t := by
  intro he
  apply hne
  have hd : s.data ++ u.data = t.data := by
    simpa [data_append] using congrArg String.data he
  have h1 : (s.data ++ u.data).take n = s.data.take n := by
    rw [List.take_append_eq_append_take, Nat.sub_eq_zero_of_le hs]
    simp
  rw [← h1, hd]

theorem str_append_cancel_left {s a b : String} (h : s ++ a = s ++ b) : a = b := by
  have hd : s.data ++ a.data = s.data ++ b.data := by
    simpa [data_append] using congrArg String.data h
  exact String.ext (List.append_cancel_left hd)

theorem beq_append_left (s a b : String) : (s ++ a == s ++ b) = (a == b) := by
  by_cases hab : a = b
  · simp [hab]
  · have h2 : s ++ a ≠ s ++ b := fun hc => hab (str_append_cancel_left hc)
    simp [hab, h2]

theorem decide_len_pos (l : List String) : decide (l.length > 0) = true ↔ l ≠ [] := by
  simp [List.length_pos]

theorem bind_ok_ex {α β : Type} (a : α) (f : α → Except String β) :
    (Except.ok a >>= f) = f a := rfl

theorem bind_error_ex {α β : Type} (e : String) (f : α → Except String β) :
    ((Except.error e : Except String α) >>= f) = (Except.error e : Except String β) := rfl

theorem map_ok_ex {α β : Type} (a : α) (f : α → β) :
    (f <$> (Except.ok a : Except String α)) = Except.ok (f a) := rfl

theorem map_error_ex {α β : Type} (e : String) (f : α → β) :
    (f <$> (Except.error e : Except String α)) = (Except.error e : Except String β) := rfl

theorem pure_ex {α : Type} (a : α) : (pure a : Except String α) = Except.ok a := rfl

/-- Inversion of a successful `build`: all mandatory manifests were present
(and the images manifest too when the marker requires it), and the result is
`buildCore` of their contents. -/
theorem build_ok_inv (P : RulePredicates) (files : BuildInputs) (r : BuildOutput)
    (h : build P files = .ok r) :
    ∃ mm em prm pm rm, files.middlewareManifest = some mm ∧ files.exportMarker = some em ∧
      (em.isNextImageImported = true → files.imagesManifest.isSome = true) ∧
      files.prerenderManifest = some prm ∧ files.pagesManifest = some pm ∧
      files.routesManifest = some rm ∧
      r = buildCore P mm em (if em.isNextImageImported then files.imagesManifest else none)
            (files.appPathRoutesManifest.getD []) prm pm rm := by
  cases hmm : files.middlewareManifest with
  | none => simp [build, readJSONFile, hmm, bind_error_ex] at h
  | some mm =>
  cases hem : files.exportMarker with
  | none => simp [build, readJSONFile, hmm, hem, bind_ok_ex, bind_error_ex] at h
  | some em =>
  cases em with
  | mk marker =>
  cases marker with
  | false =>
    cases hprm : files.prerenderManifest with
    | none =>
      simp [build, readJSONFile, hmm, hem, hprm, bind_ok_ex, bind_error_ex, pure_ex] at h
    | some prm =>
    cases hpm : files.pagesManifest with
    | none =>
      simp [build, readJSONFile, hmm, hem, hprm, hpm, bind_ok_ex, bind_error_ex, pure_ex] at h
    | some pm =>
    cases hrm : files.routesManifest with
    | none =>
      simp [build, readJSONFile, hmm, hem, hprm, hpm, hrm, bind_ok_ex, bind_error_ex,
        pure_ex, map_error_ex] at h
    | some rm =>
      refine ⟨mm, ⟨false⟩, prm, pm, rm, rfl, rfl, by simp, rfl, rfl, rfl, ?_⟩
      simp [build, readJSONFile, hmm, hem, hprm, hpm, hrm, bind_ok_ex, bind_error_ex,
        pure_ex, map_ok_ex] at h
      simp [← h]
  | true =>
    cases him : files.imagesManifest with
    | none =>
      simp [build, readJSONFile, hmm, hem, him, bind_ok_ex, bind_error_ex, pure_ex,
        map_error_ex] at h
    | some im =>
    cases hprm : files.prerenderManifest with
    | none =>
      simp [build, readJSONFile, hmm, hem, him, hprm, bind_ok_ex, bind_error_ex, pure_ex] at h
    | some prm =>
    cases hpm : files.pagesManifest with
    | none =>
      simp [build, readJSONFile, hmm, hem, him, hprm, hpm, bind_ok_ex, bind_error_ex,
        pure_ex] at h
    | some pm =>
    cases hrm : files.routesManifest with
    | none =>
      simp [build, readJSONFile, hmm, hem, him, hprm, hpm, hrm, bind_ok_ex, bind_error_ex,
        pure_ex, map_error_ex] at h
    | some rm =>
      refine ⟨mm, ⟨true⟩, prm, pm, rm, rfl, rfl, by simp [him], rfl, rfl, rfl, ?_⟩
      simp [build, readJSONFile, hmm, hem, him, hprm, hpm, hrm, bind_ok_ex, bind_error_ex,
        pure_ex, map_ok_ex] at h
      simp [him, ← h]

/-- C1: for every combination of manifests, the `wantsBackend` flag computed
by `build` is true exactly when the accumulated reasons list is non-empty. -/
theorem wantsBackend_iff_reasons_nonempty (P : RulePredicates) (files : BuildInputs)
    (r : BuildOutput) (h : build P files = Except.ok r) :
    r.wantsBackend = true ↔ r.reasonsForBackend ≠ [] := by
  obtain ⟨mm, em, prm, pm, rm, -, -, -, -, -, -, hr⟩ := build_ok_inv P files r h
  subst hr
  exact decide_len_pos _

/-- C1 witness: the theorem applied to a dist directory holding all the
mandatory manifests with empty contents. -/
theorem wantsBackend_iff_reasons_nonempty_witness :
    (buildCore acceptAll mmEmpty emFalse none [] prmEmpty [] rmEmpty).wantsBackend = true ↔
      (buildCore acceptAll mmEmpty emFalse none [] prmEmpty [] rmEmpty).reasonsForBackend ≠ [] :=
  wantsBackend_iff_reasons_nonempty acceptAll filesBase _ rfl

/-- C8 counterexample: a dist directory whose routes, prerender and pages
manifests are all present but whose middleware manifest file is absent makes
`build` throw, although the claim says that the absence of any manifest
other than the routes, prerender and pages manifests is treated as the
feature being absent. -/
theorem build_missing_middleware_fatal :
    build acceptAll filesNoMiddleware = Except.error ("middleware-manifest.json") ∧
      filesNoMiddleware.routesManifest.isSome = true ∧
      filesNoMiddleware.prerenderManifest.isSome = true ∧
      filesNoMiddleware.pagesManifest.isSome = true :=
  ⟨rfl, rfl, rfl, rfl⟩

/-- C8 (amended): only the absence of the app-path-routes manifest is treated
as the feature being absent (it defaults to an empty structure); the absence
of the middleware manifest, the export marker, the images manifest (when the
marker records an image import), or of the routes, prerender and pages
manifests is fatal to the build step. -/
theorem build_missing_manifest_policy (P : RulePredicates) (files : BuildInputs) :
    (buildSucceeds P files =
      (files.middlewareManifest.isSome &&
        (match files.exportMarker with
         | none => false
         | some em => !em.isNextImageImported || files.imagesManifest.isSome) &&
        files.prerenderManifest.isSome && files.pagesManifest.isSome &&
        files.routesManifest.isSome)) ∧
    build P { files with appPathRoutesManifest := none } =
      build P { files with appPathRoutesManifest := some [] } := by
  refine ⟨?_, rfl⟩
  cases hmm : files.middlewareManifest with
  | none => simp [buildSucceeds, build, readJSONFile, hmm, bind_error_ex]
  | some mm =>
  cases hem : files.exportMarker with
  | none => simp [buildSucceeds, build, readJSONFile, hmm, hem, bind_ok_ex, bind_error_ex]
  | some em =>
  cases em with
  | mk marker =>
  cases marker with
  | false =>
    cases hprm : files.prerenderManifest with
    | none =>
      simp [buildSucceeds, build, readJSONFile, hmm, hem, hprm, bind_ok_ex, bind_error_ex,
        pure_ex]
    | some prm =>
    cases hpm : files.pagesManifest with
    | none =>
      simp [buildSucceeds, build, readJSONFile, hmm, hem, hprm, hpm, bind_ok_ex,
        bind_error_ex, pure_ex]
    | some pm =>
    cases hrm : files.routesManifest with
    | none =>
      simp [buildSucceeds, build, readJSONFile, hmm, hem, hprm, hpm, hrm, bind_ok_ex,
        bind_error_ex, pure_ex, map_error_ex]
    | some rm =>
      simp [buildSucceeds, build, readJSONFile, hmm, hem, hprm, hpm, hrm, bind_ok_ex,
        bind_error_ex, pure_ex, map_ok_ex]
  | true =>
    cases him : files.imagesManifest with
    | none =>
      simp [buildSucceeds, build, readJSONFile, hmm, hem, him, bind_ok_ex, bind_error_ex,
        pure_ex, map_error_ex]
    | some im =>
    cases hprm : files.prerenderManifest with
    | none =>
      simp [buildSucceeds, build, readJSONFile, hmm, hem, him, hprm, bind_ok_ex,
        bind_error_ex, pure_ex]
    | some prm =>
    cases hpm : files.pagesManifest with
    | none =>
      simp [buildSucceeds, build, readJSONFile, hmm, hem, him, hprm, hpm, bind_ok_ex,
        bind_error_ex, pure_ex]
    | some pm =>
    cases hrm : files.routesManifest with
    | none =>
      simp [buildSucceeds, build, readJSONFile, hmm, hem, him, hprm, hpm, hrm, bind_ok_ex,
        bind_error_ex, pure_ex, map_error_ex]
    | some rm =>
      simp [buildSucceeds, build, readJSONFile, hmm, hem, him, hprm, hpm, hrm, bind_ok_ex,
        bind_error_ex, pure_ex, map_ok_ex]

/-! Discrimination of the reason strings: every fixed reason starts with
`use of `, the per-route reasons with `use of fallback `, `use of revalidate `
or `non-static route `, and these prefixes are mutually exclusive. -/

theorem fallback_ne_middleware (k : String) :
    "use of fallback " ++ k ≠ "use of Next middleware" :=
  append_ne_of_take_ne_right _ _ _ 8 (by decide) (by decide) (by decide)

theorem revalidate_ne_middleware (k : String) :
    "use of revalidate " ++ k ≠ "use of Next middleware" :=
  append_ne_of_take_ne_right _ _ _ 8 (by decide) (by decide) (by decide)

theorem nonstatic_ne_middleware (k : String) :
    "non-static route " ++ k ≠ "use of Next middleware" :=
  append_ne_of_take_ne_right _ _ _ 1 (by decide) (by decide) (by decide)

theorem fallback_ne_image (k : String) :
    "use of fallback " ++ k ≠ "use of Next Image Optimization" :=
  append_ne_of_take_ne_right _ _ _ 8 (by decide) (by decide) (by decide)

theorem revalidate_ne_image (k : String) :
    "use of revalidate " ++ k ≠ "use of Next Image Optimization" :=
  append_ne_of_take_ne_right _ _ _ 8 (by decide) (by decide) (by decide)

theorem nonstatic_ne_image (k : String) :
    "non-static route " ++ k ≠ "use of Next Image Optimization" :=
  append_ne_of_take_ne_right _ _ _ 1 (by decide) (by decide) (by decide)

theorem fallback_ne_advRewrites (k : String) :
    "use of fallback " ++ k ≠ "use of advanced rewrites" :=
  append_ne_of_take_ne_right _ _ _ 8 (by decide) (by decide) (by decide)

theorem revalidate_ne_advRewrites (k : String) :
    "use of revalidate " ++ k ≠ "use of advanced rewrites" :=
  append_ne_of_take_ne_right _ _ _ 8 (by decide) (by decide) (by decide)

theorem nonstatic_ne_advRewrites (k : String) :
    "non-static route " ++ k ≠ "use of advanced rewrites" :=
  append_ne_of_take_ne_right _ _ _ 1 (by decide) (by decide) (by decide)

theorem fallback_ne_revalidate (k p : String) :
    "use of fallback " ++ k ≠ "use of revalidate " ++ p :=
  append_ne_of_take_ne _ _ _ _ 8 (by decide) (by decide) (by decide)

theorem nonstatic_ne_revalidate (k p : String) :
    "non-static route " ++ k ≠ "use of revalidate " ++ p :=
  append_ne_of_take_ne _ _ _ _ 1 (by decide) (by decide) (by decide)

theorem fallback_ne_nonstatic (k p : String) :
    "use of fallback " ++ k ≠ "non-static route " ++ p :=
  append_ne_of_take_ne _ _ _ _ 1 (by decide) (by decide) (by decide)

theorem revalidate_ne_nonstatic (k p : String) :
    "use of revalidate " ++ k ≠ "non-static route " ++ p :=
  append_ne_of_take_ne _ _ _ _ 1 (by decide) (by decide) (by decide)

theorem middleware_ne_revalidate (p : String) :
    "use of Next middleware" ≠ "use of revalidate " ++ p :=
  Ne.symm (revalidate_ne_middleware p)

theorem image_ne_revalidate (p : String) :
    "use of Next Image Optimization" ≠ "use of revalidate " ++ p :=
  Ne.symm (revalidate_ne_image p)

theorem appdir_ne_revalidate (p : String) :
    "use of Next app directory" ≠ "use of revalidate " ++ p :=
  (append_ne_of_take_ne_right _ _ _ 8 (by decide) (by decide) (by decide)).symm

theorem advHeaders_ne_revalidate (p : String) :
    "use of advanced headers" ≠ "use of revalidate " ++ p :=
  (append_ne_of_take_ne_right _ _ _ 8 (by decide) (by decide) (by decide)).symm

theorem advRedirects_ne_revalidate (p : String) :
    "use of advanced redirects" ≠ "use of revalidate " ++ p :=
  (append_ne_of_take_ne_right _ _ _ 8 (by decide) (by decide) (by decide)).symm

theorem advRewrites_ne_revalidate (p : String) :
    "use of advanced rewrites" ≠ "use of revalidate " ++ p :=
  (append_ne_of_take_ne_right _ _ _ 8 (by decide) (by decide) (by decide)).symm

theorem middleware_ne_nonstatic (p : String) :
    "use of Next middleware" ≠ "non-static route " ++ p :=
  Ne.symm (nonstatic_ne_middleware p)

theorem image_ne_nonstatic (p : String) :
    "use of Next Image Optimization" ≠ "non-static route " ++ p :=
  Ne.symm (nonstatic_ne_image p)

theorem appdir_ne_nonstatic (p : String) :
    "use of Next app directory" ≠ "non-static route " ++ p :=
  (append_ne_of_take_ne_right _ _ _ 1 (by decide) (by decide) (by decide)).symm

theorem advHeaders_ne_nonstatic (p : String) :
    "use of advanced headers" ≠ "non-static route " ++ p :=
  (append_ne_of_take_ne_right _ _ _ 1 (by decide) (by decide) (by decide)).symm

theorem advRedirects_ne_nonstatic (p : String) :
    "use of advanced redirects" ≠ "non-static route " ++ p :=
  (append_ne_of_take_ne_right _ _ _ 1 (by decide) (by decide) (by decide)).symm

theorem advRewrites_ne_nonstatic (p : String) :
    "use of advanced rewrites" ≠ "non-static route " ++ p :=
  (append_ne_of_take_ne_right _ _ _ 1 (by decide) (by decide) (by decide)).symm

/-! Membership and counting in the reason segments. -/

theorem not_mem_map_of_ne {α : Type} {f : α → String} {t : String}
    (h : ∀ a, f a ≠ t) (l : List α) : t ∉ l.map f := by
  intro hmem
  obtain ⟨a, -, ha⟩ := List.mem_map.mp hmem
  exact h a ha

theorem not_mem_append_str {t : String} {l1 l2 : List String}
    (h1 : t ∉ l1) (h2 : t ∉ l2) : t ∉ l1 ++ l2 := by
  simp [List.mem_append, h1, h2]

theorem not_mem_segMiddleware {mm : MiddlewareManifest} {t : String}
    (h : t ≠ "use of Next middleware") : t ∉ segMiddleware mm := by
  unfold segMiddleware
  split <;> simp [h]

theorem not_mem_segImage {em : ExportMarker} {imo : Option ImagesManifest} {t : String}
    (h : t ≠ "use of Next Image Optimization") : t ∉ segImage em imo := by
  unfold segImage
  split
  · cases imo with
    | none => simp
    | some im => split <;> simp [h]
  · simp

theorem not_mem_segAppDir {apr : List (String × String)} {t : String}
    (h : t ≠ "use of Next app directory") : t ∉ segAppDir apr := by
  unfold segAppDir
  split <;> simp [h]

theorem not_mem_segFallback {prm : PrerenderManifest} {t : String}
    (h : ∀ k, "use of fallback " ++ k ≠ t) : t ∉ segFallback prm := by
  unfold segFallback
  exact not_mem_map_of_ne (fun (kv : String × DynamicRouteInfo) => h kv.1) _

theorem not_mem_segRevalidate {prm : PrerenderManifest} {t : String}
    (h : ∀ k, "use of revalidate " ++ k ≠ t) : t ∉ segRevalidate prm := by
  unfold segRevalidate
  exact not_mem_map_of_ne (fun (kv : String × RouteInfo) => h kv.1) _

theorem not_mem_segUnrendered {prm : PrerenderManifest} {pm : List (String × String)}
    {t : String} (h : ∀ k, "non-static route " ++ k ≠ t) : t ∉ segUnrendered prm pm := by
  unfold segUnrendered
  exact not_mem_map_of_ne h _

theorem not_mem_segHeaders {P : RulePredicates} {rm : Manifest} {t : String}
    (h : t ≠ "use of advanced headers") : t ∉ segHeaders P rm := by
  unfold segHeaders
  split <;> simp [h]

theorem not_mem_segRedirects {P : RulePredicates} {rm : Manifest} {t : String}
    (h : t ≠ "use of advanced redirects") : t ∉ segRedirects P rm := by
  unfold segRedirects
  split <;> simp [h]

theorem not_mem_segRewrites {P : RulePredicates} {rm : Manifest} {t : String}
    (h : t ≠ "use of advanced rewrites") : t ∉ segRewrites P rm := by
  unfold segRewrites
  split
  · split
    · simp [h]
    · split <;> simp [h]
  · split <;> simp [h]

/-- C3 counterexample: a middleware manifest registering one middleware whose
matcher list is empty still makes `build` add the middleware reason, although
the claim says such a manifest yields no middleware reason. -/
theorem middleware_reason_without_matchers :
    (∀ mw ∈ mmNoMatchers.middleware, mw.2.matchers = []) ∧
      build acceptAll filesNoMatchers =
        Except.ok (buildCore acceptAll mmNoMatchers emFalse none [] prmEmpty [] rmEmpty) ∧
      "use of Next middleware" ∈
        (buildCore acceptAll mmNoMatchers emFalse none [] prmEmpty [] rmEmpty).reasonsForBackend :=
  ⟨by decide, rfl, by decide⟩

/-- C3 (amended): the analyzer adds the middleware-in-use reason exactly when
the middleware manifest registers at least one middleware, regardless of
whether any registered middleware has matchers. -/
theorem middleware_reason_iff (P : RulePredicates) (files : BuildInputs) (r : BuildOutput)
    (mm : MiddlewareManifest) (h : build P files = Except.ok r)
    (hmm : files.middlewareManifest = some mm) :
    "use of Next middleware" ∈ r.reasonsForBackend ↔ mm.middleware ≠ [] := by
  obtain ⟨mm', em, prm, pm, rm, hmm', -, -, -, -, -, hr⟩ := build_ok_inv P files r h
  rw [hmm] at hmm'
  obtain rfl : mm = mm' := by injection hmm'
  subst hr
  have hrest : "use of Next middleware" ∉
      segImage em (if em.isNextImageImported = true then files.imagesManifest else none) ++
      (segAppDir (files.appPathRoutesManifest.getD []) ++ (segFallback prm ++
      (segRevalidate prm ++ (segUnrendered prm pm ++ (segHeaders P rm ++
      (segRedirects P rm ++ segRewrites P rm)))))) :=
    not_mem_append_str (not_mem_segImage (by decide))
      (not_mem_append_str (not_mem_segAppDir (by decide))
        (not_mem_append_str (not_mem_segFallback fallback_ne_middleware)
          (not_mem_append_str (not_mem_segRevalidate revalidate_ne_middleware)
            (not_mem_append_str (not_mem_segUnrendered nonstatic_ne_middleware)
              (not_mem_append_str (not_mem_segHeaders (by decide))
                (not_mem_append_str (not_mem_segRedirects (by decide))
                  (not_mem_segRewrites (by decide))))))))
  have hsplit : "use of Next middleware" ∈
        (buildCore P mm em (if em.isNextImageImported = true then files.imagesManifest else none)
          (files.appPathRoutesManifest.getD []) prm pm rm).reasonsForBackend ↔
      "use of Next middleware" ∈ segMiddleware mm := by
    simp only [buildCore, List.append_assoc, List.mem_append]
    constructor
    · rintro (hx | hx)
      · exact hx
      · exact absurd (by simpa [List.mem_append] using hx) hrest
    · exact Or.inl
  rw [hsplit]
  cases hl : mm.middleware with
  | nil => simp [segMiddleware, hl]
  | cons a l => simp [segMiddleware, hl]

/-- C3 (amended) witness: the theorem applied to the matcher-less middleware
manifest. -/
theorem middleware_reason_iff_witness :
    "use of Next middleware" ∈
        (buildCore acceptAll mmNoMatchers emFalse none [] prmEmpty [] rmEmpty).reasonsForBackend ↔
      mmNoMatchers.middleware ≠ [] :=
  middleware_reason_iff acceptAll filesNoMatchers _ mmNoMatchers rfl rfl

theorem count_eq_zero_of_not_mem {t : String} {l : List String} (h : t ∉ l) :
    l.count t = 0 :=
  List.count_eq_zero.mpr h

theorem count_str_eq_countP (l : List String) (a : String) :
    l.count a = l.countP (fun x => x == a) := rfl

/-- The revalidate segment counts the reason for route `path` exactly once
when `path` carries a positive `initialRevalidateSeconds` and the route keys
are distinct. -/
theorem count_segRevalidate_eq_one (prm : PrerenderManifest) (path : String)
    (route : RouteInfo) (n : Nat) (hmem : (path, route) ∈ prm.routes)
    (hset : route.initialRevalidateSeconds = some n) (hpos : 0 < n)
    (hnd : (prm.routes.map Prod.fst).Nodup) :
    (segRevalidate prm).count ("use of revalidate " ++ path) = 1 := by
  have hq : revalidateTruthy route.initialRevalidateSeconds = true := by
    rw [hset]
    simp only [revalidateTruthy, bne_iff_ne, ne_eq]
    omega
  unfold segRevalidate
  rw [count_str_eq_countP, List.countP_map]
  have hcong : ∀ kv ∈ prm.routes.filter
      (fun kv => revalidateTruthy kv.2.initialRevalidateSeconds),
      ((fun x => x == "use of revalidate " ++ path) ∘
        (fun kv : String × RouteInfo => "use of revalidate " ++ kv.1)) kv = true ↔
      (fun kv : String × RouteInfo => kv.1 == path) kv = true := by
    intro kv _
    simp only [Function.comp_apply, beq_append_left]
  rw [List.countP_congr hcong]
  apply Nat.le_antisymm
  · have h1 : (prm.routes.filter
        (fun kv => revalidateTruthy kv.2.initialRevalidateSeconds)).countP
          (fun kv : String × RouteInfo => kv.1 == path) ≤
        prm.routes.countP (fun kv : String × RouteInfo => kv.1 == path) :=
      (List.filter_sublist _).countP_le _
    have h2 : prm.routes.countP (fun kv : String × RouteInfo => kv.1 == path) =
        (prm.routes.map Prod.fst).count path := by
      rw [count_str_eq_countP, List.countP_map]
      rfl
    have h3 : (prm.routes.map Prod.fst).count path = 1 :=
      List.count_eq_one_of_mem hnd (List.mem_map.mpr ⟨(path, route), hmem, rfl⟩)
    omega
  · have hpos2 : 0 < (prm.routes.filter
        (fun kv => revalidateTruthy kv.2.initialRevalidateSeconds)).countP
          (fun kv : String × RouteInfo => kv.1 == path) :=
      List.countP_pos_iff.mpr ⟨(path, route), List.mem_filter.mpr ⟨hmem, hq⟩, by simp⟩
    omega

/-- C4: a prerendered route with a (positive) `initialRevalidateSeconds` is
skipped by the exporter — no HTML and no data file is copied for it, whatever
the middleware matchers and unsupported-rule regexes are — and the analyzer
adds exactly one revalidation reason naming that route. -/
theorem revalidate_route_skipped_and_reported (P : RulePredicates) (files : BuildInputs)
    (r : BuildOutput) (prm : PrerenderManifest) (path : String) (route : RouteInfo) (n : Nat)
    (regexTest : String → String → Bool) (mws : List MiddlewareMatcher)
    (rwRegexes rdRegexes hdRegexes : List String) (sourceDir distDir destDir : String)
    (h : build P files = Except.ok r) (hprm : files.prerenderManifest = some prm)
    (hmem : (path, route) ∈ prm.routes)
    (hset : route.initialRevalidateSeconds = some n) (hpos : 0 < n)
    (hnd : (prm.routes.map Prod.fst).Nodup) :
    exportRouteCopies regexTest mws rwRegexes rdRegexes hdRegexes sourceDir distDir destDir
        path route = [] ∧
      r.reasonsForBackend.count ("use of revalidate " ++ path) = 1 ∧
      "use of revalidate " ++ path ∈ r.reasonsForBackend := by
  have htr : revalidateTruthy route.initialRevalidateSeconds = true := by
    rw [hset]
    simp only [revalidateTruthy, bne_iff_ne, ne_eq]
    omega
  obtain ⟨mm, em, prm', pm, rm, -, -, -, hprm', -, -, hr⟩ := build_ok_inv P files r h
  rw [hprm] at hprm'
  obtain rfl : prm = prm' := by injection hprm'
  subst hr
  have z1 : (segMiddleware mm).count ("use of revalidate " ++ path) = 0 :=
    count_eq_zero_of_not_mem (not_mem_segMiddleware (revalidate_ne_middleware path))
  have z2 : (segImage em
      (if em.isNextImageImported = true then files.imagesManifest else none)).count
      ("use of revalidate " ++ path) = 0 :=
    count_eq_zero_of_not_mem (not_mem_segImage (revalidate_ne_image path))
  have z3 : (segAppDir (files.appPathRoutesManifest.getD [])).count
      ("use of revalidate " ++ path) = 0 :=
    count_eq_zero_of_not_mem (not_mem_segAppDir (Ne.symm (appdir_ne_revalidate path)))
  have z4 : (segFallback prm).count ("use of revalidate " ++ path) = 0 :=
    count_eq_zero_of_not_mem
      (not_mem_segFallback (fun k => fallback_ne_revalidate k path))
  have z6 : (segUnrendered prm pm).count ("use of revalidate " ++ path) = 0 :=
    count_eq_zero_of_not_mem
      (not_mem_segUnrendered (fun k => nonstatic_ne_revalidate k path))
  have z7 : (segHeaders P rm).count ("use of revalidate " ++ path) = 0 :=
    count_eq_zero_of_not_mem (not_mem_segHeaders (Ne.symm (advHeaders_ne_revalidate path)))
  have z8 : (segRedirects P rm).count ("use of revalidate " ++ path) = 0 :=
    count_eq_zero_of_not_mem
      (not_mem_segRedirects (Ne.symm (advRedirects_ne_revalidate path)))
  have z9 : (segRewrites P rm).count ("use of revalidate " ++ path) = 0 :=
    count_eq_zero_of_not_mem
      (not_mem_segRewrites (Ne.symm (advRewrites_ne_revalidate path)))
  have hone : (segRevalidate prm).count ("use of revalidate " ++ path) = 1 :=
    count_segRevalidate_eq_one prm path route n hmem hset hpos hnd
  have hcount : (buildCore P mm em
      (if em.isNextImageImported = true then files.imagesManifest else none)
      (files.appPathRoutesManifest.getD []) prm pm rm).reasonsForBackend.count
      ("use of revalidate " ++ path) = 1 := by
    simp only [buildCore, List.count_append, z1, z2, z3, z4, z6, z7, z8, z9, hone]
  refine ⟨?_, hcount, List.count_pos_iff.mp (by omega)⟩
  simp [exportRouteCopies, htr]

/-- C4 witness: the theorem applied to the prerender manifest whose root
route revalidates every ten seconds. -/
theorem revalidate_route_skipped_and_reported_witness :
    exportRouteCopies (fun _ _ => false) [] [] [] [] "src" ".next" "dest" "/"
        routeRevalidate = [] ∧
      (buildCore acceptAll mmEmpty emFalse none [] prmRevalidate []
          rmEmpty).reasonsForBackend.count ("use of revalidate " ++ "/") = 1 ∧
      "use of revalidate " ++ "/" ∈
        (buildCore acceptAll mmEmpty emFalse none [] prmRevalidate []
          rmEmpty).reasonsForBackend :=
  revalidate_route_skipped_and_reported acceptAll filesRevalidate _ prmRevalidate "/"
    routeRevalidate 10 (fun _ _ => false) [] [] [] [] "src" ".next" "dest" rfl rfl
    (by decide) rfl (by decide) (by decide)

/-- C5: the analyzer adds the image-optimization reason exactly when the
image-import marker is set and the images manifest does not disable
optimization (`unoptimized` is `false`). -/
theorem image_optimization_reason_iff (P : RulePredicates) (files : BuildInputs)
    (r : BuildOutput) (em : ExportMarker) (im : ImagesManifest)
    (h : build P files = Except.ok r) (hem : files.exportMarker = some em)
    (him : files.imagesManifest = some im) :
    "use of Next Image Optimization" ∈ r.reasonsForBackend ↔
      em.isNextImageImported = true ∧ im.images.unoptimized = false := by
  obtain ⟨mm, em', prm, pm, rm, -, hem', -, -, -, -, hr⟩ := build_ok_inv P files r h
  rw [hem] at hem'
  obtain rfl : em = em' := by injection hem'
  subst hr
  have z1 : "use of Next Image Optimization" ∉ segMiddleware mm :=
    not_mem_segMiddleware (by decide)
  have z3 : "use of Next Image Optimization" ∉
      segAppDir (files.appPathRoutesManifest.getD []) :=
    not_mem_segAppDir (by decide)
  have z4 : "use of Next Image Optimization" ∉ segFallback prm :=
    not_mem_segFallback fallback_ne_image
  have z5 : "use of Next Image Optimization" ∉ segRevalidate prm :=
    not_mem_segRevalidate revalidate_ne_image
  have z6 : "use of Next Image Optimization" ∉ segUnrendered prm pm :=
    not_mem_segUnrendered nonstatic_ne_image
  have z7 : "use of Next Image Optimization" ∉ segHeaders P rm :=
    not_mem_segHeaders (by decide)
  have z8 : "use of Next Image Optimization" ∉ segRedirects P rm :=
    not_mem_segRedirects (by decide)
  have z9 : "use of Next Image Optimization" ∉ segRewrites P rm :=
    not_mem_segRewrites (by decide)
  have hsplit : "use of Next Image Optimization" ∈
      (buildCore P mm em (if em.isNextImageImported = true then files.imagesManifest else none)
        (files.appPathRoutesManifest.getD []) prm pm rm).reasonsForBackend ↔
      "use of Next Image Optimization" ∈
        segImage em (if em.isNextImageImported = true then files.imagesManifest else none) := by
    simp [buildCore, List.mem_append, z1, z3, z4, z5, z6, z7, z8, z9]
  rw [hsplit]
  cases hmark : em.isNextImageImported with
  | false => simp [segImage, hmark]
  | true =>
    rw [if_pos rfl, him]
    cases hu : im.images.unoptimized with
    | false => simp [segImage, hmark, hu]
    | true => simp [segImage, hmark, hu]

/-- C5 witness: the theorem applied to a marker recording an image import and
an images manifest with `unoptimized: false`. -/
theorem image_optimization_reason_iff_witness :
    "use of Next Image Optimization" ∈
        (buildCore acceptAll mmEmpty emTrue (some imOptimized) [] prmEmpty []
          rmEmpty).reasonsForBackend ↔
      emTrue.isNextImageImported = true ∧ imOptimized.images.unoptimized = false :=
  image_optimization_reason_iff acceptAll filesImage _ emTrue imOptimized rfl rfl rfl

/-- The rewrites segment pushes exactly one reason when the rewrites are
phased with a non-empty `afterFiles` or `fallback` list. -/
theorem count_segRewrites_phased (P : RulePredicates) (rm : Manifest)
    (before after fb : List RewriteRule)
    (hph : rm.rewrites = some (RewritesField.phased before after fb))
    (hne : after ≠ [] ∨ fb ≠ []) :
    (segRewrites P rm).count ("use of advanced rewrites") = 1 := by
  have hcond : (decide (after.length > 0) || decide (fb.length > 0)) = true := by
    rcases hne with hx | hx
    · rcases after with _ | ⟨a, as⟩
      · exact absurd rfl hx
      · simp
    · rcases fb with _ | ⟨a, as⟩
      · exact absurd rfl hx
      · simp
  simp [segRewrites, hph, hcond]

/-- C6: when the routes manifest's rewrites are in phased form with a
non-empty `afterFiles` or `fallback` list, the analyzer adds exactly one
unsupported-rewrites reason, whatever the per-rule compatibility predicate
says about the individual rules. -/
theorem advanced_rewrites_reason_once (P : RulePredicates) (files : BuildInputs)
    (r : BuildOutput) (rm : Manifest) (before after fb : List RewriteRule)
    (h : build P files = Except.ok r) (hrm : files.routesManifest = some rm)
    (hph : rm.rewrites = some (RewritesField.phased before after fb))
    (hne : after ≠ [] ∨ fb ≠ []) :
    r.reasonsForBackend.count ("use of advanced rewrites") = 1 := by
  obtain ⟨mm, em, prm, pm, rm', -, -, -, -, -, hrm', hr⟩ := build_ok_inv P files r h
  rw [hrm] at hrm'
  obtain rfl : rm = rm' := by injection hrm'
  subst hr
  have z1 : (segMiddleware mm).count ("use of advanced rewrites") = 0 :=
    count_eq_zero_of_not_mem (not_mem_segMiddleware (by decide))
  have z2 : (segImage em
      (if em.isNextImageImported = true then files.imagesManifest else none)).count
      ("use of advanced rewrites") = 0 :=
    count_eq_zero_of_not_mem (not_mem_segImage (by decide))
  have z3 : (segAppDir (files.appPathRoutesManifest.getD [])).count
      ("use of advanced rewrites") = 0 :=
    count_eq_zero_of_not_mem (not_mem_segAppDir (by decide))
  have z4 : (segFallback prm).count ("use of advanced rewrites") = 0 :=
    count_eq_zero_of_not_mem
      (not_mem_segFallback (fun k => fallback_ne_advRewrites k))
  have z5 : (segRevalidate prm).count ("use of advanced rewrites") = 0 :=
    count_eq_zero_of_not_mem
      (not_mem_segRevalidate (fun k => revalidate_ne_advRewrites k))
  have z6 : (segUnrendered prm pm).count ("use of advanced rewrites") = 0 :=
    count_eq_zero_of_not_mem
      (not_mem_segUnrendered (fun k => nonstatic_ne_advRewrites k))
  have z7 : (segHeaders P rm).count ("use of advanced rewrites") = 0 :=
    count_eq_zero_of_not_mem (not_mem_segHeaders (by decide))
  have z8 : (segRedirects P rm).count ("use of advanced rewrites") = 0 :=
    count_eq_zero_of_not_mem (not_mem_segRedirects (by decide))
  have hone : (segRewrites P rm).count ("use of advanced rewrites") = 1 :=
    count_segRewrites_phased P rm before after fb hph hne
  simp only [buildCore, List.count_append, z1, z2, z3, z4, z5, z6, z7, z8, hone]

/-- C6 witness: the theorem applied to a routes manifest whose rewrites are
phased with one `afterFiles` rule, under predicates accepting every rule. -/
theorem advanced_rewrites_reason_once_witness :
    (buildCore acceptAll mmEmpty emFalse none [] prmEmpty []
        rmPhased).reasonsForBackend.count ("use of advanced rewrites") = 1 :=
  advanced_rewrites_reason_once acceptAll filesPhased _ rmPhased [] [rwAfter] [] rfl rfl
    rfl (Or.inl (by decide))

/-- The unrendered-pages segment counts the reason for page `p` exactly once
when `p` is a non-reserved pages-manifest key outside the prerendered and
dynamic route sets and the page keys are distinct. -/
theorem count_segUnrendered_eq_one (prm : PrerenderManifest) (pm : List (String × String))
    (p : String) (hmem : p ∈ pm.map Prod.fst)
    (hres : p ∉ (["/_app", "/", "/_error", "/_document", "/404"] : List String))
    (hpre : p ∉ prm.routes.map Prod.fst) (hdyn : p ∉ prm.dynamicRoutes.map Prod.fst)
    (hnd : (pm.map Prod.fst).Nodup) :
    (segUnrendered prm pm).count ("non-static route " ++ p) = 1 := by
  have hq : (!(["/_app", "/", "/_error", "/_document", "/404"].contains p
      || (prm.routes.map Prod.fst).contains p
      || (prm.dynamicRoutes.map Prod.fst).contains p)) = true := by
    have h1 : ∀ x : RouteInfo, (p, x) ∉ prm.routes :=
      fun x hx => hpre (List.mem_map.mpr ⟨(p, x), hx, rfl⟩)
    have h2 : ∀ x : DynamicRouteInfo, (p, x) ∉ prm.dynamicRoutes :=
      fun x hx => hdyn (List.mem_map.mpr ⟨(p, x), hx, rfl⟩)
    have h3 : ¬p = "/_app" ∧ ¬p = "/" ∧ ¬p = "/_error" ∧ ¬p = "/_document" ∧ ¬p = "/404" := by
      simpa using hres
    simp [h1, h2, h3.1, h3.2.1, h3.2.2.1, h3.2.2.2.1, h3.2.2.2.2]
  simp only [segUnrendered, unrenderedPages]
  rw [count_str_eq_countP, List.countP_map]
  have hcong : ∀ k ∈ (pm.map Prod.fst).filter (fun it =>
      !(["/_app", "/", "/_error", "/_document", "/404"].contains it
        || (prm.routes.map Prod.fst).contains it
        || (prm.dynamicRoutes.map Prod.fst).contains it)),
      ((fun x => x == "non-static route " ++ p) ∘
        (fun key => "non-static route " ++ key)) k = true ↔
      (fun k : String => k == p) k = true := by
    intro k _
    simp only [Function.comp_apply, beq_append_left]
  rw [List.countP_congr hcong]
  apply Nat.le_antisymm
  · have h1 : ((pm.map Prod.fst).filter (fun it =>
        !(["/_app", "/", "/_error", "/_document", "/404"].contains it
          || (prm.routes.map Prod.fst).contains it
          || (prm.dynamicRoutes.map Prod.fst).contains it))).countP
          (fun k : String => k == p) ≤
        (pm.map Prod.fst).countP (fun k : String => k == p) :=
      (List.filter_sublist _).countP_le _
    have h3 : (pm.map Prod.fst).count p = 1 := List.count_eq_one_of_mem hnd hmem
    rw [count_str_eq_countP] at h3
    omega
  · have hpos2 : 0 < ((pm.map Prod.fst).filter (fun it =>
        !(["/_app", "/", "/_error", "/_document", "/404"].contains it
          || (prm.routes.map Prod.fst).contains it
          || (prm.dynamicRoutes.map Prod.fst).contains it))).countP
          (fun k : String => k == p) :=
      List.countP_pos_iff.mpr ⟨p, List.mem_filter.mpr ⟨hmem, hq⟩, by simp⟩
    omega

/-- C7: a pages-manifest page that is not a reserved system page and belongs
to neither the prerendered nor the dynamic route set gets exactly one
non-static-route reason naming it, and `wantsBackend` is consequently true. -/
theorem nonstatic_route_reason (P : RulePredicates) (files : BuildInputs) (r : BuildOutput)
    (prm : PrerenderManifest) (pm : List (String × String)) (p : String)
    (h : build P files = Except.ok r) (hprm : files.prerenderManifest = some prm)
    (hpm : files.pagesManifest = some pm) (hmem : p ∈ pm.map Prod.fst)
    (hres : p ∉ (["/_app", "/", "/_error", "/_document", "/404"] : List String))
    (hpre : p ∉ prm.routes.map Prod.fst) (hdyn : p ∉ prm.dynamicRoutes.map Prod.fst)
    (hnd : (pm.map Prod.fst).Nodup) :
    r.reasonsForBackend.count ("non-static route " ++ p) = 1 ∧
      "non-static route " ++ p ∈ r.reasonsForBackend ∧
      r.wantsBackend = true := by
  obtain ⟨mm, em, prm', pm', rm, -, -, -, hprm', hpm', -, hr⟩ := build_ok_inv P files r h
  rw [hprm] at hprm'
  obtain rfl : prm = prm' := by injection hprm'
  rw [hpm] at hpm'
  obtain rfl : pm = pm' := by injection hpm'
  subst hr
  have z1 : (segMiddleware mm).count ("non-static route " ++ p) = 0 :=
    count_eq_zero_of_not_mem (not_mem_segMiddleware (Ne.symm (middleware_ne_nonstatic p)))
  have z2 : (segImage em
      (if em.isNextImageImported = true then files.imagesManifest else none)).count
      ("non-static route " ++ p) = 0 :=
    count_eq_zero_of_not_mem (not_mem_segImage (Ne.symm (image_ne_nonstatic p)))
  have z3 : (segAppDir (files.appPathRoutesManifest.getD [])).count
      ("non-static route " ++ p) = 0 :=
    count_eq_zero_of_not_mem (not_mem_segAppDir (Ne.symm (appdir_ne_nonstatic p)))
  have z4 : (segFallback prm).count ("non-static route " ++ p) = 0 :=
    count_eq_zero_of_not_mem
      (not_mem_segFallback (fun k => fallback_ne_nonstatic k p))
  have z5 : (segRevalidate prm).count ("non-static route " ++ p) = 0 :=
    count_eq_zero_of_not_mem
      (not_mem_segRevalidate (fun k => revalidate_ne_nonstatic k p))
  have z7 : (segHeaders P rm).count ("non-static route " ++ p) = 0 :=
    count_eq_zero_of_not_mem (not_mem_segHeaders (Ne.symm (advHeaders_ne_nonstatic p)))
  have z8 : (segRedirects P rm).count ("non-static route " ++ p) = 0 :=
    count_eq_zero_of_not_mem (not_mem_segRedirects (Ne.symm (advRedirects_ne_nonstatic p)))
  have z9 : (segRewrites P rm).count ("non-static route " ++ p) = 0 :=
    count_eq_zero_of_not_mem (not_mem_segRewrites (Ne.symm (advRewrites_ne_nonstatic p)))
  have hone : (segUnrendered prm pm).count ("non-static route " ++ p) = 1 :=
    count_segUnrendered_eq_one prm pm p hmem hres hpre hdyn hnd
  have hcount : (buildCore P mm em
      (if em.isNextImageImported = true then files.imagesManifest else none)
      (files.appPathRoutesManifest.getD []) prm pm rm).reasonsForBackend.count
      ("non-static route " ++ p) = 1 := by
    simp only [buildCore, List.count_append, z1, z2, z3, z4, z5, z7, z8, z9, hone]
  have hmem2 : "non-static route " ++ p ∈ (buildCore P mm em
      (if em.isNextImageImported = true then files.imagesManifest else none)
      (files.appPathRoutesManifest.getD []) prm pm rm).reasonsForBackend :=
    List.count_pos_iff.mp (by omega)
  exact ⟨hcount, hmem2, (decide_len_pos _).mpr (List.ne_nil_of_mem hmem2)⟩

/-- C7 witness: the theorem applied to a pages manifest containing `/about`
with empty prerender manifest. -/
theorem nonstatic_route_reason_witness :
    (buildCore acceptAll mmEmpty emFalse none [] prmEmpty [("/about", "pages/about.js")]
        rmEmpty).reasonsForBackend.count ("non-static route " ++ "/about") = 1 ∧
      "non-static route " ++ "/about" ∈
        (buildCore acceptAll mmEmpty emFalse none [] prmEmpty
          [("/about", "pages/about.js")] rmEmpty).reasonsForBackend ∧
      (buildCore acceptAll mmEmpty emFalse none [] prmEmpty [("/about", "pages/about.js")]
        rmEmpty).wantsBackend = true :=
  nonstatic_route_reason acceptAll filesAbout _ prmEmpty [("/about", "pages/about.js")]
    "/about" rfl rfl rfl (by decide) (by decide) (by decide) (by decide) (by decide)

/-- C2 counterexample: when `index.html` exists in both the legacy
(`server/pages`) and the component-rendered (`server/app`) build locations,
the file is copied from the legacy location — not from the
component-rendered location the claim says is preferred. -/
theorem default_html_copy_prefers_pages_cex :
    defaultHtmlCopySource ("app") (".next") (fun _ => true) (fun _ => true) ("index.html") =
        some ("app/.next/server/pages/index.html") ∧
      defaultHtmlCopySource ("app") (".next") (fun _ => true) (fun _ => true) ("index.html") ≠
        some ("app/.next/server/app/index.html") :=
  ⟨rfl, by decide⟩

/-- C2 (amended): for each of the root/error HTML files, the exporter copies
from the legacy (`server/pages`) build location whenever the file exists
there, preferring it over the component-rendered (`server/app`) location;
the component-rendered location is used only when the pages location lacks
the file. -/
theorem default_html_copy_prefers_pages (sourceDir distDir : String)
    (pagesHas appHas : String → Bool) (file : String) :
    (pagesHas file = true →
      defaultHtmlCopySource sourceDir distDir pagesHas appHas file =
        some (sourceDir ++ "/" ++ distDir ++ "/server/pages/" ++ file)) ∧
    (pagesHas file = false → appHas file = true →
      defaultHtmlCopySource sourceDir distDir pagesHas appHas file =
        some (sourceDir ++ "/" ++ distDir ++ "/server/app/" ++ file)) := by
  constructor
  · intro hp
    simp [defaultHtmlCopySource, hp]
  · intro hp ha
    simp [defaultHtmlCopySource, hp, ha]

/-- C2 (amended) witness: a file present only in the pages location is copied
from there. -/
theorem default_html_copy_prefers_pages_witness :
    defaultHtmlCopySource ("app") (".next") (fun _ => true) (fun _ => false) ("404.html") =
      some ("app" ++ "/" ++ ".next" ++ "/server/pages/" ++ "404.html") :=
  (default_html_copy_prefers_pages ("app") (".next") (fun _ => true) (fun _ => false)
    ("404.html")).1 rfl

/-- C9: each emitted rule list of `build` is the per-rule emission projection
of an order-preserving filter of the corresponding input rule list: the
rules surviving the compatibility predicate keep their original relative
order (a sublist of the projected input), and unsupported rules are dropped. -/
theorem emitted_rules_preserve_order (P : RulePredicates) (files : BuildInputs)
    (r : BuildOutput) (rm : Manifest) (h : build P files = Except.ok r)
    (hrm : files.routesManifest = some rm) :
    (r.headers = ((rm.headers.getD []).filter P.isHeaderSupportedByFirebase).map
        (fun hd => { source := P.cleanEscapedChars hd.source,
                     headers := hd.headers : EmittedHeader }) ∧
      ((rm.headers.getD []).filter P.isHeaderSupportedByFirebase).Sublist
        (rm.headers.getD []) ∧
      r.headers.Sublist ((rm.headers.getD []).map
        (fun hd => { source := P.cleanEscapedChars hd.source,
                     headers := hd.headers : EmittedHeader }))) ∧
    (r.redirects = ((rm.redirects.getD []).filter P.isRedirectSupportedByFirebase).map
        (fun rd => { source := P.cleanEscapedChars rd.source,
                     destination := rd.destination,
                     type := rd.statusCode : EmittedRedirect }) ∧
      ((rm.redirects.getD []).filter P.isRedirectSupportedByFirebase).Sublist
        (rm.redirects.getD []) ∧
      r.redirects.Sublist ((rm.redirects.getD []).map
        (fun rd => { source := P.cleanEscapedChars rd.source,
                     destination := rd.destination,
                     type := rd.statusCode : EmittedRedirect }))) ∧
    (r.rewrites = ((getNextjsRewritesToUse (rm.rewrites.getD (.list []))).filter
          P.isRewriteSupportedByFirebase).map
        (fun rw => { source := P.cleanEscapedChars rw.source,
                     destination :=  rw.destination : EmittedRewrite }) ∧
      ((getNextjsRewritesToUse (rm.rewrites.getD (.list []))).filter
          P.isRewriteSupportedByFirebase).Sublist
        (getNextjsRewritesToUse (rm.rewrites.getD (.list []))) ∧
      r.rewrites.Sublist ((getNextjsRewritesToUse (rm.rewrites.getD (.list []))).map
        (fun rw => { source := P.cleanEscapedChars rw.source,
                     destination := rw.destination : EmittedRewrite }))) := by
  obtain ⟨mm, em, prm, pm, rm', -, -, -, -, -, hrm', hr⟩ := build_ok_inv P files r h
  rw [hrm] at hrm'
  obtain rfl : rm = rm' := by injection hrm'
  subst hr
  refine ⟨⟨rfl, List.filter_sublist _, ?_⟩, ⟨rfl, List.filter_sublist _, ?_⟩,
    ⟨rfl, List.filter_sublist _, ?_⟩⟩
  · exact (List.filter_sublist _).map _
  · exact (List.filter_sublist _).map _
  · exact (List.filter_sublist _).map _

/-- C9 witness: the theorem applied to the empty routes manifest. -/
theorem emitted_rules_preserve_order_witness :
    (buildCore acceptAll mmEmpty emFalse none [] prmEmpty [] rmEmpty).headers =
      ((rmEmpty.headers.getD []).filter acceptAll.isHeaderSupportedByFirebase).map
        (fun hd => { source := acceptAll.cleanEscapedChars hd.source,
                     headers := hd.headers : EmittedHeader }) :=
  (emitted_rules_preserve_order acceptAll filesBase _ rmEmpty rfl rfl).1.1

/-- C10: path-to-file resolution of the exporter: the root route `/` (whose
non-empty segment list is empty) resolves to the HTML file name `index.html`
and the data-sidecar source `index.json`, never the bare extension `.html`;
every route with a non-empty segment list resolves to the joined segments
plus the rendering-kind-appropriate extension. -/
theorem export_path_resolution :
    htmlPathOf ("/") = "index.html" ∧ dataPathOf ("/") = "index.json" ∧
      htmlPathOf ("/") ≠ ".html" ∧
      ∀ path, pathParts path ≠ [] →
        htmlPathOf path = String.intercalate ("/") (pathParts path) ++ ".html" ∧
        dataPathOf path = String.intercalate ("/") (pathParts path) ++ ".json" := by
  refine ⟨rfl, rfl, by decide, ?_⟩
  intro path hne
  have hpos : (pathParts path).length > 0 := List.length_pos.mpr hne
  constructor <;> simp [htmlPathOf, dataPathOf, partsOrIndex, hpos]

/-- C10 witness: the theorem applied to the route path `/about/me`. -/
theorem export_path_resolution_witness :
    htmlPathOf ("/about/me") =
      String.intercalate ("/") (pathParts ("/about/me")) ++ ".html" :=
  (export_path_resolution.2.2.2 ("/about/me") (by decide)).1

end NextAdapter
